import Mathlib

/-!
Verification of the DRTP reliable file-transfer program (`application.py`)
against its natural-language specification.

The program is shallowly embedded: byte strings become `List Nat` (each
element a byte value), `struct.pack`/`struct.unpack` with format `!HHHH`
become explicit base-256 arithmetic that fails (`Option.none`, the model of
an uncaught `struct.error`) outside the 16-bit range, and the client and
server loops become step functions over explicit state records driven by
event lists (a received datagram or a socket timeout).
-/

/-- Timeout in seconds, `TIMEOUT = 0.4` (source line 10).  Time is not
modelled quantitatively; timeouts are events. -/
def TIMEOUT_MS : Nat := 400

/-- `FLAG_ACK = 0b0001` (source line 11). -/
def FLAG_ACK : Nat := 1

/-- `FLAG_SYN = 0b0010` (source line 12). -/
def FLAG_SYN : Nat := 2

/-- `FLAG_FIN = 0b0100` (source line 13). -/
def FLAG_FIN : Nat := 4

/-- `BUFFER_SIZE = 1000` (source line 14): each `recvfrom(BUFFER_SIZE)`
truncates a datagram to its first 1000 bytes. -/
def BUFFER_SIZE : Nat := 1000

/-- `struct.pack('!H', n)`: two big-endian bytes for `n`, or `none`
(modelling the raised `struct.error`) when `n` is out of the 16-bit range. -/
def packU16 (n : Nat) : Option (List Nat) :=
  if n < 65536 then some [n / 256, n % 256] else none

/-- `create_packet(seq_num, ack_num, flags, recv_window, data)` (source
lines 22-25): `struct.pack('!HHHH', ...)` of the four header fields followed
by the payload; `none` models the `struct.error` raised when a field does
not fit in 16 bits. -/
def create_packet (seq_num ack_num flags recv_window : Nat)
    (data : List Nat) : Option (List Nat) :=
  match packU16 seq_num, packU16 ack_num, packU16 flags, packU16 recv_window with
  | some s, some a, some f, some w => some (s ++ a ++ f ++ w ++ data)
  | _, _, _, _ => none

/-- `parse_packet(packet)` (source lines 28-33): the first 8 bytes are
unpacked as four big-endian 16-bit integers and the rest is the payload;
`none` models the `struct.error` raised by `struct.unpack('!HHHH', header)`
when fewer than 8 bytes are available. -/
def parse_packet (packet : List Nat) :
    Option (Nat × Nat × Nat × Nat × List Nat) :=
  match packet with
  | b0 :: b1 :: b2 :: b3 :: b4 :: b5 :: b6 :: b7 :: data =>
      some (b0 * 256 + b1, b2 * 256 + b3, b4 * 256 + b5, b6 * 256 + b7, data)
  | _ => none

/-- The byte string `create_packet` produces when all fields are in range. -/
def packetBytes (seq_num ack_num flags recv_window : Nat)
    (data : List Nat) : List Nat :=
  [seq_num / 256, seq_num % 256, ack_num / 256, ack_num % 256,
   flags / 256, flags % 256, recv_window / 256, recv_window % 256] ++ data

theorem create_packet_eq (s a f w : Nat) (d : List Nat)
    (hs : s < 65536) (ha : a < 65536) (hf : f < 65536) (hw : w < 65536) :
    create_packet s a f w d = some (packetBytes s a f w d) := by
  simp [create_packet, packU16, packetBytes, hs, ha, hf, hw]

theorem parse_packetBytes (s a f w : Nat) (d : List Nat) :
    parse_packet (packetBytes s a f w d) = some (s, a, f, w, d) := by
  have hs : s / 256 * 256 + s % 256 = s := by omega
  have ha : a / 256 * 256 + a % 256 = a := by omega
  have hf : f / 256 * 256 + f % 256 = f := by omega
  have hw : w / 256 * 256 + w % 256 = w := by omega
  simp [packetBytes, parse_packet, hs, ha, hf, hw]

theorem packetBytes_length (s a f w : Nat) (d : List Nat) :
    (packetBytes s a f w d).length = 8 + d.length := by
  simp [packetBytes]
  omega

theorem packetBytes_take (s a f w : Nat) (d : List Nat)
    (hd : d.length ≤ 992) :
    (packetBytes s a f w d).take BUFFER_SIZE = packetBytes s a f w d := by
  apply List.take_of_length_le
  rw [packetBytes_length]
  simp [BUFFER_SIZE]
  omega

/-- Mutable state of the server receive loop (source lines 63-94):
the `--discard` flag, whether one data packet has already been discarded,
and the bytes written to the output file so far. -/
structure ServerState where
  discardFlag : Bool
  discarded : Bool
  fileContents : List Nat
deriving DecidableEq, Repr

/-- An event observed at a blocking `recvfrom` call: an arriving datagram
(already truncated to `BUFFER_SIZE` by the caller) or a socket timeout. -/
inductive NetEvent where
  | packet (bytes : List Nat)
  | timeout
deriving DecidableEq, Repr

/-- Result of one iteration of the server receive loop. -/
inductive ServerStepResult where
  /-- The loop continues with the new state, having sent `sent`. -/
  | next (st : ServerState) (sent : List (List Nat))
  /-- The FIN branch (source lines 79-84): FIN|ACK sent, loop breaks. -/
  | finished (st : ServerState) (sent : List (List Nat))
  /-- The `socket.timeout` handler (source lines 92-94): loop breaks. -/
  | timedOut (st : ServerState)
  /-- An exception other than `socket.timeout` escaped the `try` block
  (the loop only catches `socket.timeout`, so a `struct.error` from
  `parse_packet` propagates and kills the server). -/
  | crashed
deriving DecidableEq, Repr

/-- The guard of the loss-simulation branch (source line 73):
`discard_flag and not discarded and data`. -/
def serverDiscards (st : ServerState) (data : List Nat) : Bool :=
  st.discardFlag && !st.discarded && !data.isEmpty

/-- One iteration of the server receive loop (source lines 67-94), as a
function of the event returned by `recvfrom`. -/
def serverStep (st : ServerState) : NetEvent → ServerStepResult
  | .timeout => .timedOut st
  | .packet p =>
    match parse_packet p with
    | none => .crashed
    | some (seq, _ack, flags, _recv_window, data) =>
      if serverDiscards st data then
        .next { st with discarded := true } []
      else if flags &&& FLAG_FIN ≠ 0 then
        match create_packet 0 0 (FLAG_FIN ||| FLAG_ACK) 0 [] with
        | some finAck => .finished st [finAck]
        | none => .crashed
      else
        match create_packet 0 seq FLAG_ACK 0 [] with
        | some ackPkt =>
            .next { st with fileContents := st.fileContents ++ data } [ackPkt]
        | none => .crashed

/-- Outcome of running the server receive loop over a finite event list. -/
inductive ServerLoopResult where
  /-- Loop leaves via the FIN branch: the success path. -/
  | finished (st : ServerState) (sent : List (List Nat))
  /-- Loop leaves via the `socket.timeout` handler: the transfer is
  incomplete (`ConnectionTimedOut` in the specification). -/
  | timedOut (st : ServerState) (sent : List (List Nat))
  /-- An uncaught exception escaped the loop. -/
  | crashed
  /-- The supplied event list ended while the loop was still blocked. -/
  | pending (st : ServerState) (sent : List (List Nat))
deriving DecidableEq, Repr

/-- Whether a loop outcome is the `ConnectionTimedOut` outcome. -/
def ServerLoopResult.isTimedOut : ServerLoopResult → Bool
  | .timedOut _ _ => true
  | _ => false

/-- The server receive loop (source lines 67-94) over a list of events. -/
def serverLoop (st : ServerState) (sent : List (List Nat)) :
    List NetEvent → ServerLoopResult
  | [] => .pending st sent
  | e :: es =>
    match serverStep st e with
    | .next st2 out => serverLoop st2 (sent ++ out) es
    | .finished st2 out => .finished st2 (sent ++ out)
    | .timedOut st2 => .timedOut st2 sent
    | .crashed => .crashed

/-- A datagram whose arrival during the data phase reaches the
acknowledge-and-save branch (source lines 86-90): it parses, carries no FIN
flag, and its sequence number fits 16 bits so the echoed acknowledgment can
be packed. -/
def acceptsData (p : List Nat) : Bool :=
  match parse_packet p with
  | some (seq, _, flags, _, _) => flags &&& FLAG_FIN == 0 && seq < 65536
  | none => false

/-- Mutable state of the client sliding-window loop (source lines 142-165):
`base` and `next_seq` are reassigned inside the loop, while the window size
and the chunk list are fixed for the transfer. -/
structure SenderState where
  base : Nat
  next_seq : Nat
  window_size : Nat
  chunks : List (List Nat)
deriving DecidableEq, Repr

/-- Result of the wait-for-ACK part of one sender loop iteration. -/
inductive SenderStepResult where
  | ok (st : SenderState)
  /-- An exception other than `socket.timeout` escaped the `try` block
  (only `socket.timeout` is caught, so a `struct.error` from `parse_packet`
  propagates and kills the client). -/
  | crashed
deriving DecidableEq, Repr

/-- The wait-for-ACK phase of the sender loop (source lines 156-165): on a
received datagram, parse it and set `base = ack_num + 1` whenever the ACK
flag is set; on `socket.timeout`, reset `next_seq = base`. -/
def senderWaitStep (st : SenderState) : NetEvent → SenderStepResult
  | .timeout => .ok { st with next_seq := st.base }
  | .packet p =>
    match parse_packet p with
    | none => .crashed
    | some (_seq, ack_num, flags, _recv_window, _data) =>
      if flags &&& FLAG_ACK ≠ 0 then .ok { st with base := ack_num + 1 }
      else .ok st

/-- Result of the client's handling of the handshake reply
(source lines 119-131). -/
inductive HandshakeResult where
  /-- SYN|ACK received: the effective window and the final ACK datagram the
  client sends back (source lines 122-128). -/
  | established (window : Nat) (finalAck : List Nat)
  /-- The `else` branch (source lines 129-131): log and return. -/
  | aborted
  /-- An uncaught exception (`struct.error` from `parse_packet`, or a
  `struct.error` packing the final ACK). -/
  | crashed
deriving DecidableEq, Repr

/-- The client's processing of the datagram received in reply to its SYN
(source lines 119-131): if the reply has both SYN and ACK set, the window
for the whole transfer becomes `min(window_size, recv_window)` and the
final ACK of the handshake carries that value. -/
def clientHandshakeRecv (window_size : Nat) (reply : List Nat) :
    HandshakeResult :=
  match parse_packet reply with
  | none => .crashed
  | some (_seq, _ack, flags, recv_window, _data) =>
    if flags &&& FLAG_SYN ≠ 0 ∧ flags &&& FLAG_ACK ≠ 0 then
      match create_packet 1 0 FLAG_ACK (min window_size recv_window) [] with
      | some finalAck => .established (min window_size recv_window) finalAck
      | none => .crashed
    else .aborted

/-- The server's reply to the first datagram of the handshake (source lines
43-48): if the SYN flag is set, answer SYN|ACK with the hard-coded receiver
window 15; `none` covers both the non-SYN `else` branch (return) and an
uncaught parse failure, neither of which produces a reply. -/
def serverHandshakeReply (firstPacket : List Nat) : Option (List Nat) :=
  match parse_packet firstPacket with
  | none => none
  | some (_seq, _ack, flags, _recv_window, _data) =>
    if flags &&& FLAG_SYN ≠ 0 then
      create_packet 0 0 (FLAG_SYN ||| FLAG_ACK) 15 []
    else none

/-- The server's check of the final handshake datagram (source lines 49-58):
the connection is established iff the ACK flag is set; a parse failure (no
`try` here) or a missing ACK flag ends the server. -/
def serverHandshakeAckOk (finalAck : List Nat) : Bool :=
  match parse_packet finalAck with
  | some (_seq, _ack, flags, _recv_window, _data) => flags &&& FLAG_ACK != 0
  | none => false

/-- Result of the client's wait for FIN|ACK after it sent FIN
(source lines 172-176). -/
inductive TeardownResult where
  /-- FIN and ACK both set: the client logs `Connection closes`. -/
  | closed
  /-- Some other datagram: the `if` fails silently and the client falls
  through to the throughput report. -/
  | silent
  /-- The `recvfrom` at source line 172 is not inside any `try`: a
  `socket.timeout` (or a `struct.error` from `parse_packet`) propagates out
  of `client` and the process dies with a traceback. -/
  | crashed
deriving DecidableEq, Repr

/-- The client's wait for FIN|ACK after sending FIN (source lines 172-176). -/
def clientTeardownRecv : NetEvent → TeardownResult
  | .timeout => .crashed
  | .packet p =>
    match parse_packet p with
    | none => .crashed
    | some (_seq, _ack, flags, _recv_window, _data) =>
      if flags &&& FLAG_ACK ≠ 0 ∧ flags &&& FLAG_FIN ≠ 0 then .closed
      else .silent

/-- The inner send loop of the client (source lines 150-154): while
`next_seq < base + window_size and next_seq < total`, send
`create_packet(next_seq, 0, 0, window_size, chunks[next_seq])` and advance
`next_seq`.  Returns the datagrams sent, in order, and the final `next_seq`;
`none` models an uncaught `struct.error` from `create_packet`. -/
def sendWindow (chunks : List (List Nat)) (window_size base : Nat)
    (next_seq : Nat) : Option (List (List Nat) × Nat) :=
  if next_seq < base + window_size ∧ next_seq < chunks.length then
    match create_packet next_seq 0 0 window_size (chunks.getD next_seq []) with
    | none => none
    | some pkt =>
      match sendWindow chunks window_size base (next_seq + 1) with
      | none => none
      | some (pkts, ns) => some (pkt :: pkts, ns)
  else some ([], next_seq)
termination_by base + window_size - next_seq
decreasing_by omega

/-- The server consuming, one `serverStep` at a time, every datagram queued
on the loss-free in-order channel.  Returns the final state, the datagrams
the server sent in response, and whether the loop left via the FIN branch
(after which the server reads no more, so remaining datagrams are dropped);
`none` models a server crash. -/
def serverDrain (st : ServerState) :
    List (List Nat) → Option (ServerState × List (List Nat) × Bool)
  | [] => some (st, [], false)
  | p :: ps =>
    match serverStep st (.packet p) with
    | .next st2 out =>
      match serverDrain st2 ps with
      | none => none
      | some (st3, outs, fin) => some (st3, out ++ outs, fin)
    | .finished st2 out => some (st2, out, true)
    | .timedOut _ => none
    | .crashed => none

/-- Delivery of client datagrams over the loss-free in-order channel: each
datagram is truncated to `BUFFER_SIZE` by the server's `recvfrom`, and a
server that already left its receive loop reads nothing. -/
def deliverToServer (st : ServerState) (closed : Bool)
    (pkts : List (List Nat)) :
    Option (ServerState × Bool × List (List Nat)) :=
  if closed then some (st, true, [])
  else
    match serverDrain st (pkts.map (fun p => p.take BUFFER_SIZE)) with
    | none => none
    | some (st2, outs, fin) => some (st2, fin, outs)

/-- The client's sliding-window loop (source lines 148-165) composed with
the server's receive loop over a loss-free in-order channel: each iteration
sends the window (`sendWindow`), delivers it (the server drains its queue
before the client's `recvfrom` deadline expires), queues the server's
replies behind any undelivered ones, then performs the wait-for-ACK phase
on the first queued reply (an empty queue is a `socket.timeout`, whose
handler resets `next_seq = base`).  `fuel` bounds the number of loop
iterations evaluated; `none` means the run crashed or ran out of fuel. -/
def transferLoop (chunks : List (List Nat)) (window_size : Nat) :
    Nat → Nat → Nat → List (List Nat) → ServerState → Bool →
    Option (ServerState × Bool)
  | 0, _, _, _, _, _ => none
  | fuel + 1, base, next_seq, inbox, srv, closed =>
    if base < chunks.length then
      match sendWindow chunks window_size base next_seq with
      | none => none
      | some (pkts, ns) =>
        match deliverToServer srv closed pkts with
        | none => none
        | some (srv2, closed2, replies) =>
          match inbox ++ replies.map (fun p => p.take BUFFER_SIZE) with
          | [] => transferLoop chunks window_size fuel base base [] srv2 closed2
          | a :: rest =>
            match parse_packet a with
            | none => none
            | some (_seq, ack_num, flags, _recv_window, _data) =>
              if flags &&& FLAG_ACK ≠ 0 then
                transferLoop chunks window_size fuel (ack_num + 1) ns rest srv2 closed2
              else
                transferLoop chunks window_size fuel base ns rest srv2 closed2
    else some (srv, closed)

/-- A complete loss-free in-order run of `client` (source lines 109-183)
against `server` (source lines 36-100), with the `--discard` loss simulation
off: SYN, SYN|ACK, final ACK, the sliding-window data transfer, then FIN and
FIN|ACK.  Returns the bytes the server wrote to its output file, or `none`
if either side crashed or `fuel` iterations did not finish the transfer. -/
def fullRun (fuel window_size : Nat) (chunks : List (List Nat)) :
    Option (List Nat) :=
  match create_packet 0 0 FLAG_SYN window_size [] with
  | none => none
  | some syn =>
    match serverHandshakeReply (syn.take BUFFER_SIZE) with
    | none => none
    | some reply =>
      match clientHandshakeRecv window_size (reply.take BUFFER_SIZE) with
      | .established effWindow finalAck =>
        if serverHandshakeAckOk (finalAck.take BUFFER_SIZE) then
          match transferLoop chunks effWindow fuel 0 0 [] ⟨false, false, []⟩ false with
          | none => none
          | some (srv, closed) =>
            match create_packet 0 0 FLAG_FIN effWindow [] with
            | none => none
            | some finPkt =>
              match deliverToServer srv closed [finPkt] with
              | none => none
              | some (srv2, _closed2, finReplies) =>
                match finReplies with
                | [] => none
                | finReply :: _ =>
                  match clientTeardownRecv (.packet (finReply.take BUFFER_SIZE)) with
                  | .crashed => none
                  | _ => some srv2.fileContents
        else none
      | _ => none

/-- C2: for every header tuple of 16-bit unsigned integers and every payload
of length 0 to 992 bytes, `create_packet` produces exactly `8 + len(payload)`
bytes and `parse_packet` recovers exactly the header tuple and payload. -/
theorem C2_encode_decode_roundtrip (s a f w : Nat) (d : List Nat)
    (hs : s < 65536) (ha : a < 65536) (hf : f < 65536) (hw : w < 65536)
    (hd : d.length ≤ 992) :
    ∃ bs, create_packet s a f w d = some bs ∧ bs.length = 8 + d.length ∧
      parse_packet bs = some (s, a, f, w, d) :=
  ⟨packetBytes s a f w d, create_packet_eq s a f w d hs ha hf hw,
   packetBytes_length s a f w d, parse_packetBytes s a f w d⟩

theorem C2_encode_decode_roundtrip_witness :
    ∃ bs, create_packet 7 8 3 15 [1, 2, 3] = some bs ∧ bs.length = 8 + 3 ∧
      parse_packet bs = some (7, 8, 3, 15, [1, 2, 3]) :=
  C2_encode_decode_roundtrip 7 8 3 15 [1, 2, 3]
    (by decide) (by decide) (by decide) (by decide) (by decide)

theorem parse_packet_none_of_short (p : List Nat) (h : p.length < 8) :
    parse_packet p = none := by
  rcases p with _ | ⟨b0, p⟩
  · rfl
  rcases p with _ | ⟨b1, p⟩
  · rfl
  rcases p with _ | ⟨b2, p⟩
  · rfl
  rcases p with _ | ⟨b3, p⟩
  · rfl
  rcases p with _ | ⟨b4, p⟩
  · rfl
  rcases p with _ | ⟨b5, p⟩
  · rfl
  rcases p with _ | ⟨b6, p⟩
  · rfl
  rcases p with _ | ⟨b7, p⟩
  · rfl
  · simp at h
    omega

theorem parse_packet_some_of_long (p : List Nat) (h : 8 ≤ p.length) :
    ∃ s a f w d, parse_packet p = some (s, a, f, w, d) := by
  rcases p with _ | ⟨b0, p⟩
  · simp at h
  rcases p with _ | ⟨b1, p⟩
  · simp at h
  rcases p with _ | ⟨b2, p⟩
  · simp at h
  rcases p with _ | ⟨b3, p⟩
  · simp at h
  rcases p with _ | ⟨b4, p⟩
  · simp at h
  rcases p with _ | ⟨b5, p⟩
  · simp at h
  rcases p with _ | ⟨b6, p⟩
  · simp at h
  rcases p with _ | ⟨b7, p⟩
  · simp at h
  · exact ⟨_, _, _, _, _, rfl⟩

/-- C3 (amended): `parse_packet` fails exactly on inputs shorter than 8
bytes; but the server's data-phase loop catches only `socket.timeout`, so a
malformed packet is NOT discarded: the `struct.error` escapes and crashes
the receive loop. -/
theorem C3_parse_length_and_loop_crash (p : List Nat) (st : ServerState) :
    (p.length < 8 →
      parse_packet p = none ∧ serverStep st (.packet p) = .crashed) ∧
    (8 ≤ p.length → ∃ s a f w d, parse_packet p = some (s, a, f, w, d)) := by
  constructor
  · intro h
    have hp := parse_packet_none_of_short p h
    exact ⟨hp, by simp [serverStep, hp]⟩
  · exact parse_packet_some_of_long p

theorem C3_parse_length_witness :
    (parse_packet [] = none ∧
      serverStep ⟨false, false, []⟩ (.packet []) = .crashed) ∧
    (∃ s a f w d,
      parse_packet [0, 0, 0, 0, 0, 0, 0, 0] = some (s, a, f, w, d)) :=
  ⟨(C3_parse_length_and_loop_crash [] ⟨false, false, []⟩).1 (by decide),
   (C3_parse_length_and_loop_crash [0, 0, 0, 0, 0, 0, 0, 0]
      ⟨false, false, []⟩).2 (by decide)⟩

/-- C3 counterexample: a 3-byte datagram arriving during the data phase
crashes the server receive loop (uncaught `struct.error`); it is not
discarded with the loop continuing as the claim states. -/
theorem C3_malformed_crashes_loop :
    serverStep ⟨false, false, []⟩ (.packet [1, 2, 3]) =
      ServerStepResult.crashed ∧
    ServerStepResult.crashed ≠
      ServerStepResult.next ⟨false, false, []⟩ [] := by
  decide

/-- C4: on a SYN|ACK reply advertising `adv`, the client sets the governing
window for the transfer to `min(requested, adv)` (source line 123) and sends
the final ACK carrying it. -/
theorem C4_effective_window_min (req adv : Nat) (hadv : adv < 65536)
    (bs : List Nat)
    (hbs : create_packet 0 0 (FLAG_SYN ||| FLAG_ACK) adv [] = some bs) :
    ∃ finalAck,
      clientHandshakeRecv req bs = .established (min req adv) finalAck := by
  rw [create_packet_eq 0 0 (FLAG_SYN ||| FLAG_ACK) adv []
    (by decide) (by decide) (by decide) hadv] at hbs
  cases hbs
  have hmin : min req adv < 65536 := by
    have := Nat.min_le_right req adv
    omega
  refine ⟨packetBytes 1 0 FLAG_ACK (min req adv) [], ?_⟩
  simp [clientHandshakeRecv, parse_packetBytes,
    create_packet_eq 1 0 FLAG_ACK (min req adv) []
      (by decide) (by decide) (by decide) hmin]
  decide

theorem C4_effective_window_min_witness :
    ∃ finalAck, clientHandshakeRecv 5 [0, 0, 0, 0, 0, 3, 0, 15] =
      .established (min 5 15) finalAck :=
  C4_effective_window_min 5 15 (by decide) [0, 0, 0, 0, 0, 3, 0, 15]
    (by decide)

/-- C5 (amended): on every received packet with the ACK flag set the sender
sets `base = ack_num + 1` unconditionally (source line 162) — so `base`
never moves past one more than an acknowledgment number actually received,
but a stale or duplicate acknowledgment moves `base` backward instead of
being ignored. -/
theorem C5_base_set_to_ack_plus_one (st : SenderState) (p : List Nat)
    (s a f w : Nat) (d : List Nat)
    (hp : parse_packet p = some (s, a, f, w, d))
    (hf : f &&& FLAG_ACK ≠ 0) :
    senderWaitStep st (.packet p) =
      .ok ⟨a + 1, st.next_seq, st.window_size, st.chunks⟩ := by
  simp [senderWaitStep, hp, hf]

theorem C5_base_set_witness :
    senderWaitStep ⟨0, 0, 1, []⟩ (.packet [0, 0, 0, 9, 0, 1, 0, 0]) =
      .ok ⟨10, 0, 1, []⟩ :=
  C5_base_set_to_ack_plus_one ⟨0, 0, 1, []⟩ [0, 0, 0, 9, 0, 1, 0, 0]
    0 9 1 0 [] (by decide) (by decide)

/-- C5 counterexample: with `base = 5`, a stale ACK carrying `ack_num = 2`
moves `base` back to 3; `base` is not monotonically non-decreasing and the
stale acknowledgment is not ignored. -/
theorem C5_stale_ack_moves_base_backward :
    senderWaitStep ⟨5, 5, 3, []⟩ (.packet [0, 0, 0, 2, 0, 1, 0, 0]) =
      .ok ⟨3, 5, 3, []⟩ ∧ 3 < 5 := by
  decide

/-- C6: when the sender's receive times out, `base` is unchanged, `next_seq`
is reset to `base` (source line 165), and nothing else in the sender state
changes, so the next fill phase retransmits the whole outstanding window. -/
theorem C6_timeout_resets_next_seq (st : SenderState) :
    senderWaitStep st .timeout =
      .ok ⟨st.base, st.base, st.window_size, st.chunks⟩ :=
  rfl

theorem serverStep_data (st : ServerState) (p : List Nat)
    (s a f w : Nat) (d : List Nat)
    (hp : parse_packet p = some (s, a, f, w, d))
    (hacc : serverDiscards st d = false)
    (hfin : f &&& FLAG_FIN = 0)
    (hs : s < 65536) :
    serverStep st (.packet p) =
      .next ⟨st.discardFlag, st.discarded, st.fileContents ++ d⟩
        [packetBytes 0 s FLAG_ACK 0 []] := by
  simp [serverStep, hp, hacc, hfin,
    create_packet_eq 0 s FLAG_ACK 0 [] (by decide) hs (by decide) (by decide)]

/-- C7: every accepted non-FIN data packet makes the receiver send exactly
one ACK whose `ack` field equals the received `seq` and append exactly the
packet's payload to the output bytes (source lines 86-90). -/
theorem C7_ack_and_append (st : ServerState) (p : List Nat)
    (s a f w : Nat) (d : List Nat)
    (hp : parse_packet p = some (s, a, f, w, d))
    (hacc : serverDiscards st d = false)
    (hfin : f &&& FLAG_FIN = 0)
    (hs : s < 65536) :
    serverStep st (.packet p) =
      .next ⟨st.discardFlag, st.discarded, st.fileContents ++ d⟩
        [packetBytes 0 s FLAG_ACK 0 []] ∧
    parse_packet (packetBytes 0 s FLAG_ACK 0 []) =
      some (0, s, FLAG_ACK, 0, []) :=
  ⟨serverStep_data st p s a f w d hp hacc hfin hs,
   parse_packetBytes 0 s FLAG_ACK 0 []⟩

theorem C7_ack_and_append_witness :
    serverStep ⟨false, false, [9]⟩ (.packet [0, 2, 0, 0, 0, 0, 0, 3, 5, 6]) =
      .next ⟨false, false, [9] ++ [5, 6]⟩ [packetBytes 0 2 FLAG_ACK 0 []] ∧
    parse_packet (packetBytes 0 2 FLAG_ACK 0 []) =
      some (0, 2, FLAG_ACK, 0, []) :=
  C7_ack_and_append ⟨false, false, [9]⟩ [0, 2, 0, 0, 0, 0, 0, 3, 5, 6]
    2 0 0 3 [5, 6] (by decide) (by decide) (by decide) (by decide)

/-- C8: if the receiver's blocking receive reports a timeout before any FIN
packet has arrived (every earlier event being an accepted non-FIN data
packet), the receive loop terminates with the `ConnectionTimedOut` outcome,
not the success outcome. -/
theorem C8_timeout_reports_timed_out (pre rest : List NetEvent) (d : Bool)
    (file : List Nat) (sent : List (List Nat))
    (hpre : ∀ e ∈ pre, ∃ p, e = NetEvent.packet p ∧ acceptsData p = true) :
    (serverLoop ⟨false, d, file⟩ sent
        (pre ++ NetEvent.timeout :: rest)).isTimedOut = true := by
  induction pre generalizing d file sent with
  | nil => rfl
  | cons e pre ih =>
    obtain ⟨p, rfl, hacc⟩ := hpre e (List.mem_cons_self e pre)
    unfold acceptsData at hacc
    rcases hq : parse_packet p with _ | ⟨s, a, f, w, dd⟩
    · rw [hq] at hacc
      exact absurd hacc (by simp)
    · rw [hq] at hacc
      simp only [Bool.and_eq_true, beq_iff_eq, decide_eq_true_eq] at hacc
      obtain ⟨hfin, hslt⟩ := hacc
      have hstep := serverStep_data ⟨false, d, file⟩ p s a f w dd hq
        (by simp [serverDiscards]) hfin hslt
      simp only [List.cons_append, serverLoop, hstep]
      exact ih _ _ _ (fun e he => hpre e (List.mem_cons_of_mem _ he))

theorem C8_timeout_reports_timed_out_witness :
    (serverLoop ⟨false, false, []⟩ []
        [NetEvent.packet [0, 0, 0, 0, 0, 0, 0, 1, 5],
         NetEvent.timeout]).isTimedOut = true :=
  C8_timeout_reports_timed_out
    [NetEvent.packet [0, 0, 0, 0, 0, 0, 0, 1, 5]] [] false [] []
    (by
      intro e he
      simp only [List.mem_singleton] at he
      exact ⟨[0, 0, 0, 0, 0, 0, 0, 1, 5], he, by decide⟩)

/-- C9 (amended): the client's wait for FIN|ACK (source line 172) sits
outside any `try` block, so if it times out the `socket.timeout` exception
escapes `client` and the process dies abnormally; no `TeardownIncomplete`
outcome is reported (and no graceful close happens). -/
theorem C9_teardown_timeout_crashes :
    clientTeardownRecv NetEvent.timeout = TeardownResult.crashed :=
  rfl

/-- C9 counterexample: on a timeout while waiting for FIN|ACK the client
neither reaches the graceful-close branch nor the silent fall-through to
the throughput report — it crashes, contradicting the claimed non-fatal
`TeardownIncomplete` outcome. -/
theorem C9_timeout_not_graceful :
    clientTeardownRecv NetEvent.timeout ≠ TeardownResult.closed ∧
    clientTeardownRecv NetEvent.timeout ≠ TeardownResult.silent := by
  decide

/-- C10: for every incoming datagram with the SYN flag set, the server's
SYN|ACK reply carries the hard-coded `recv_window` 15 (source line 47),
whatever window the client requested; hence the client's negotiated
effective window is always `min(requested, 15)`. -/
theorem C10_server_advertises_15 (p : List Nat) (s a f w : Nat)
    (d : List Nat) (hp : parse_packet p = some (s, a, f, w, d))
    (hsyn : f &&& FLAG_SYN ≠ 0) (req : Nat) :
    serverHandshakeReply p =
      some (packetBytes 0 0 (FLAG_SYN ||| FLAG_ACK) 15 []) ∧
    parse_packet (packetBytes 0 0 (FLAG_SYN ||| FLAG_ACK) 15 []) =
      some (0, 0, FLAG_SYN ||| FLAG_ACK, 15, []) ∧
    ∃ finalAck,
      clientHandshakeRecv req (packetBytes 0 0 (FLAG_SYN ||| FLAG_ACK) 15 []) =
        .established (min req 15) finalAck := by
  refine ⟨?_, parse_packetBytes 0 0 (FLAG_SYN ||| FLAG_ACK) 15 [], ?_⟩
  · simp [serverHandshakeReply, hp, hsyn,
      create_packet_eq 0 0 (FLAG_SYN ||| FLAG_ACK) 15 []
        (by decide) (by decide) (by decide) (by decide)]
  · have hmin : min req 15 < 65536 := by
      have := Nat.min_le_right req 15
      omega
    refine ⟨packetBytes 1 0 FLAG_ACK (min req 15) [], ?_⟩
    simp [clientHandshakeRecv, parse_packetBytes,
      create_packet_eq 1 0 FLAG_ACK (min req 15) []
        (by decide) (by decide) (by decide) hmin]
    decide

theorem C10_server_advertises_15_witness :
    serverHandshakeReply [0, 0, 0, 0, 0, 2, 0, 20] =
      some (packetBytes 0 0 (FLAG_SYN ||| FLAG_ACK) 15 []) ∧
    parse_packet (packetBytes 0 0 (FLAG_SYN ||| FLAG_ACK) 15 []) =
      some (0, 0, FLAG_SYN ||| FLAG_ACK, 15, []) ∧
    ∃ finalAck,
      clientHandshakeRecv 20 (packetBytes 0 0 (FLAG_SYN ||| FLAG_ACK) 15 []) =
        .established (min 20 15) finalAck :=
  C10_server_advertises_15 [0, 0, 0, 0, 0, 2, 0, 20] 0 0 2 20 []
    (by decide) (by decide) 20

/-- The acknowledgment datagram the server sends for sequence number `k`
(source line 89). -/
def ackBytes (k : Nat) : List Nat :=
  packetBytes 0 k FLAG_ACK 0 []

/-- The data datagram the client sends for sequence number `i`
(source line 151). -/
def dataBytes (chunks : List (List Nat)) (window_size i : Nat) : List Nat :=
  packetBytes i 0 0 window_size (chunks.getD i [])

theorem range1_append (s m n : Nat) :
    List.range' s m ++ List.range' (s + m) n = List.range' s (m + n) := by
  induction m generalizing s with
  | zero => simp
  | succ m ih =>
    rw [List.range'_succ, show m + 1 + n = (m + n) + 1 by omega,
      List.range'_succ]
    simp only [List.cons_append]
    rw [show s + (m + 1) = s + 1 + m by omega, ih (s + 1)]

theorem chunk_getD_short (chunks : List (List Nat))
    (hch : ∀ c ∈ chunks, c.length ≤ 992) (i : Nat) :
    (chunks.getD i []).length ≤ 992 := by
  by_cases hi : i < chunks.length
  · rw [List.getD_eq_getElem _ _ hi]
    exact hch _ (List.getElem_mem hi)
  · rw [List.getD_eq_default _ _ (by omega)]
    simp

theorem map_take_ackBytes (l : List Nat) :
    (l.map ackBytes).map (fun p => p.take BUFFER_SIZE) = l.map ackBytes := by
  rw [List.map_map]
  exact List.map_congr_left (fun a _ => packetBytes_take 0 a FLAG_ACK 0 [] (by decide))

theorem map_take_dataBytes (chunks : List (List Nat))
    (hch : ∀ c ∈ chunks, c.length ≤ 992) (W : Nat) (l : List Nat) :
    (l.map (dataBytes chunks W)).map (fun p => p.take BUFFER_SIZE) =
      l.map (dataBytes chunks W) := by
  rw [List.map_map]
  exact List.map_congr_left
    (fun a _ => packetBytes_take a 0 0 W _ (chunk_getD_short chunks hch a))

theorem sendWindow_spec (chunks : List (List Nat)) (W base : Nat)
    (hW : W < 65536) (htot : chunks.length ≤ 65536) :
    ∀ m ns, base + W - ns ≤ m →
      sendWindow chunks W base ns =
        some ((List.range' ns (min (base + W) chunks.length - ns)).map
                (dataBytes chunks W),
              max ns (min (base + W) chunks.length)) := by
  intro m
  induction m with
  | zero =>
    intro ns h
    have h1 : ¬(ns < base + W ∧ ns < chunks.length) := by omega
    have h2 : min (base + W) chunks.length ≤ ns := by
      have := Nat.min_le_left (base + W) chunks.length
      omega
    rw [sendWindow, if_neg h1]
    rw [Nat.sub_eq_zero_of_le h2, Nat.max_eq_left h2]
    simp
  | succ m ih =>
    intro ns h
    by_cases hc : ns < base + W ∧ ns < chunks.length
    · rw [sendWindow, if_pos hc,
        create_packet_eq ns 0 0 W (chunks.getD ns []) (by omega) (by decide)
          (by decide) hW,
        ih (ns + 1) (by omega)]
      have hlt : ns < min (base + W) chunks.length :=
        Nat.lt_min.mpr ⟨hc.1, hc.2⟩
      have hm : min (base + W) chunks.length - ns =
          (min (base + W) chunks.length - (ns + 1)) + 1 := by omega
      have hmax : max ns (min (base + W) chunks.length) =
          min (base + W) chunks.length := Nat.max_eq_right (by omega)
      have hmax2 : max (ns + 1) (min (base + W) chunks.length) =
          min (base + W) chunks.length := Nat.max_eq_right (by omega)
      rw [hm, hmax, hmax2, List.range'_succ]
      simp [dataBytes]
    · have hle1 := Nat.min_le_left (base + W) chunks.length
      have hle2 := Nat.min_le_right (base + W) chunks.length
      have h2 : min (base + W) chunks.length ≤ ns := by omega
      rw [sendWindow, if_neg hc]
      rw [Nat.sub_eq_zero_of_le h2, Nat.max_eq_left h2]
      simp

theorem serverDrain_data (chunks : List (List Nat)) (W : Nat)
    (htot : chunks.length ≤ 65536) :
    ∀ n a file, a + n ≤ chunks.length →
      serverDrain ⟨false, false, file⟩
          ((List.range' a n).map (dataBytes chunks W)) =
        some (⟨false, false,
                file ++ ((List.range' a n).map (fun i => chunks.getD i [])).flatten⟩,
              (List.range' a n).map ackBytes, false) := by
  intro n
  induction n with
  | zero =>
    intro a file h
    simp [serverDrain]
  | succ n ih =>
    intro a file h
    have hstep : serverStep ⟨false, false, file⟩
        (.packet (dataBytes chunks W a)) =
        .next ⟨false, false, file ++ chunks.getD a []⟩ [ackBytes a] := by
      simp [serverStep, dataBytes, parse_packetBytes, serverDiscards,
        FLAG_FIN, ackBytes,
        create_packet_eq 0 a FLAG_ACK 0 [] (by decide) (by omega)
          (by decide) (by decide)]
    rw [List.range'_succ]
    simp only [List.map_cons, serverDrain, hstep,
      ih (a + 1) (file ++ chunks.getD a []) (by omega), List.flatten_cons]
    simp [List.append_assoc]

theorem take_flatten_seg (chunks : List (List Nat)) :
    ∀ n a, a + n ≤ chunks.length →
      (chunks.take (a + n)).flatten =
        (chunks.take a).flatten ++
          ((List.range' a n).map (fun i => chunks.getD i [])).flatten := by
  intro n
  induction n with
  | zero => simp
  | succ n ih =>
    intro a h
    rw [List.range'_succ]
    simp only [List.map_cons, List.flatten_cons]
    have htake : chunks.take (a + 1) = chunks.take a ++ [chunks.getD a []] := by
      rw [List.take_succ]
      have ha : a < chunks.length := by omega
      rw [List.getD_eq_getElem _ _ ha]
      simp [List.getElem?_eq_getElem ha]
    rw [show a + (n + 1) = (a + 1) + n by omega, ih (a + 1) (by omega), htake]
    simp [List.append_assoc]

theorem deliver_data (chunks : List (List Nat)) (W : Nat)
    (htot : chunks.length ≤ 65536)
    (hch : ∀ c ∈ chunks, c.length ≤ 992)
    (n a : Nat) (file : List Nat) (h : a + n ≤ chunks.length) :
    deliverToServer ⟨false, false, file⟩ false
        ((List.range' a n).map (dataBytes chunks W)) =
      some (⟨false, false,
              file ++ ((List.range' a n).map (fun i => chunks.getD i [])).flatten⟩,
            false, (List.range' a n).map ackBytes) := by
  simp [deliverToServer, map_take_dataBytes chunks hch W,
    serverDrain_data chunks W htot n a file h]

theorem transferLoop_run (chunks : List (List Nat)) (W : Nat)
    (hW1 : 1 ≤ W) (hW : W < 65536) (htot : chunks.length ≤ 65536)
    (hch : ∀ c ∈ chunks, c.length ≤ 992) :
    ∀ fuel k s0, k ≤ s0 → s0 ≤ chunks.length → s0 ≤ k + W →
      chunks.length - k < fuel →
      transferLoop chunks W fuel k s0
          ((List.range' k (s0 - k)).map ackBytes)
          ⟨false, false, (chunks.take s0).flatten⟩ false =
        some (⟨false, false, chunks.flatten⟩, false) := by
  intro fuel
  induction fuel with
  | zero =>
    intro k s0 h1 h2 h3 h4
    omega
  | succ fuel ih =>
    intro k s0 h1 h2 h3 h4
    by_cases hk : k < chunks.length
    · have hle1 := Nat.min_le_left (k + W) chunks.length
      have hle2 := Nat.min_le_right (k + W) chunks.length
      have hlow : k + 1 ≤ min (k + W) chunks.length :=
        Nat.le_min.mpr ⟨by omega, by omega⟩
      have hsend := sendWindow_spec chunks W k hW htot (k + W - s0) s0 (by omega)
      rw [Nat.max_eq_right (by omega : s0 ≤ min (k + W) chunks.length)] at hsend
      have hdel : deliverToServer ⟨false, false, (chunks.take s0).flatten⟩ false
          ((List.range' s0 (min (k + W) chunks.length - s0)).map
            (dataBytes chunks W)) =
          some (⟨false, false,
                  (chunks.take (min (k + W) chunks.length)).flatten⟩,
                false,
                (List.range' s0 (min (k + W) chunks.length - s0)).map ackBytes) := by
        rw [deliver_data chunks W htot hch _ s0 _ (by omega),
          ← take_flatten_seg chunks _ s0 (by omega),
          show s0 + (min (k + W) chunks.length - s0) =
            min (k + W) chunks.length by omega]
      have hinbox : (List.range' k (s0 - k)).map ackBytes ++
          (List.range' s0 (min (k + W) chunks.length - s0)).map ackBytes =
          ackBytes k ::
            (List.range' (k + 1)
              (min (k + W) chunks.length - (k + 1))).map ackBytes := by
        rw [← List.map_append]
        have hr := range1_append k (s0 - k) (min (k + W) chunks.length - s0)
        rw [show k + (s0 - k) = s0 by omega] at hr
        rw [hr, show s0 - k + (min (k + W) chunks.length - s0) =
          (min (k + W) chunks.length - (k + 1)) + 1 by omega,
          List.range'_succ, List.map_cons]
      have hparse : parse_packet (ackBytes k) = some (0, k, FLAG_ACK, 0, []) :=
        parse_packetBytes 0 k FLAG_ACK 0 []
      simp only [transferLoop, if_pos hk, hsend, hdel, map_take_ackBytes,
        hinbox, hparse]
      rw [if_pos (by decide : FLAG_ACK &&& FLAG_ACK ≠ 0)]
      exact ih (k + 1) (min (k + W) chunks.length) hlow hle2 (by omega) (by omega)
    · have hs0 : s0 = chunks.length := by omega
      subst hs0
      simp only [transferLoop, if_neg hk, List.take_length]

/-- C1 (amended): for every requested window size `1 ≤ W ≤ 65535` and every
input file partitioned into `N ≤ 65536` chunks of at most 992 bytes, a
loss-free in-order run of the client sender and server receiver writes to
the receiver's output exactly the original byte sequence — the chunks
concatenated in sequence-number order.  (The 16-bit bounds are forced by
`struct.pack('!H', ...)`, which raises for values above 65535.) -/
theorem C1_lossfree_delivery (W : Nat) (chunks : List (List Nat))
    (fuel : Nat) (hW1 : 1 ≤ W) (hW : W < 65536)
    (hN : chunks.length ≤ 65536) (hch : ∀ c ∈ chunks, c.length ≤ 992)
    (hfuel : chunks.length < fuel) :
    fullRun fuel W chunks = some chunks.flatten := by
  have hle15 := Nat.min_le_right W 15
  have hmin15 : min W 15 < 65536 := by omega
  have hmin1 : 1 ≤ min W 15 := Nat.le_min.mpr ⟨hW1, by omega⟩
  have hsyn : create_packet 0 0 FLAG_SYN W [] =
      some (packetBytes 0 0 FLAG_SYN W []) :=
    create_packet_eq _ _ _ _ _ (by decide) (by decide) (by decide) hW
  have htk1 : (packetBytes 0 0 FLAG_SYN W []).take BUFFER_SIZE =
      packetBytes 0 0 FLAG_SYN W [] :=
    packetBytes_take _ _ _ _ _ (by decide)
  have hreply : serverHandshakeReply (packetBytes 0 0 FLAG_SYN W []) =
      some (packetBytes 0 0 (FLAG_SYN ||| FLAG_ACK) 15 []) := by
    simp [serverHandshakeReply, parse_packetBytes,
      create_packet_eq 0 0 (FLAG_SYN ||| FLAG_ACK) 15 []
        (by decide) (by decide) (by decide) (by decide)]
    decide
  have htk2 : (packetBytes 0 0 (FLAG_SYN ||| FLAG_ACK) 15 []).take BUFFER_SIZE =
      packetBytes 0 0 (FLAG_SYN ||| FLAG_ACK) 15 [] :=
    packetBytes_take _ _ _ _ _ (by decide)
  have hcli : clientHandshakeRecv W (packetBytes 0 0 (FLAG_SYN ||| FLAG_ACK) 15 []) =
      .established (min W 15) (packetBytes 1 0 FLAG_ACK (min W 15) []) := by
    simp [clientHandshakeRecv, parse_packetBytes,
      create_packet_eq 1 0 FLAG_ACK (min W 15) []
        (by decide) (by decide) (by decide) hmin15]
    decide
  have htk3 : (packetBytes 1 0 FLAG_ACK (min W 15) []).take BUFFER_SIZE =
      packetBytes 1 0 FLAG_ACK (min W 15) [] :=
    packetBytes_take _ _ _ _ _ (by decide)
  have hackok : serverHandshakeAckOk (packetBytes 1 0 FLAG_ACK (min W 15) []) =
      true := by
    simp [serverHandshakeAckOk, parse_packetBytes]
    decide
  have hrun : transferLoop chunks (min W 15) fuel 0 0 [] ⟨false, false, []⟩ false =
      some (⟨false, false, chunks.flatten⟩, false) := by
    have h := transferLoop_run chunks (min W 15) hmin1 hmin15 hN hch fuel 0 0
      (by omega) (by omega) (by omega) (by omega)
    simpa using h
  have hfin : create_packet 0 0 FLAG_FIN (min W 15) [] =
      some (packetBytes 0 0 FLAG_FIN (min W 15) []) :=
    create_packet_eq _ _ _ _ _ (by decide) (by decide) (by decide) hmin15
  have hfindel : deliverToServer ⟨false, false, chunks.flatten⟩ false
      [packetBytes 0 0 FLAG_FIN (min W 15) []] =
      some (⟨false, false, chunks.flatten⟩, true,
            [packetBytes 0 0 (FLAG_FIN ||| FLAG_ACK) 0 []]) := by
    have hstep : serverStep ⟨false, false, chunks.flatten⟩
        (.packet (packetBytes 0 0 FLAG_FIN (min W 15) [])) =
        .finished ⟨false, false, chunks.flatten⟩
          [packetBytes 0 0 (FLAG_FIN ||| FLAG_ACK) 0 []] := by
      have hg1 : FLAG_FIN &&& FLAG_FIN ≠ 0 := by decide
      have hg2 : (FLAG_FIN : Nat) ≠ 0 := by decide
      simp [serverStep, parse_packetBytes, serverDiscards, hg1, hg2,
        create_packet_eq 0 0 (FLAG_FIN ||| FLAG_ACK) 0 []
          (by decide) (by decide) (by decide) (by decide)]
    simp [deliverToServer, serverDrain,
      packetBytes_take 0 0 FLAG_FIN (min W 15) [] (by decide), hstep]
  have htk4 : (packetBytes 0 0 (FLAG_FIN ||| FLAG_ACK) 0 []).take BUFFER_SIZE =
      packetBytes 0 0 (FLAG_FIN ||| FLAG_ACK) 0 [] :=
    packetBytes_take _ _ _ _ _ (by decide)
  have htear : clientTeardownRecv
      (.packet (packetBytes 0 0 (FLAG_FIN ||| FLAG_ACK) 0 [])) = .closed := by
    simp [clientTeardownRecv, parse_packetBytes]
    decide
  simp only [fullRun, hsyn, htk1, hreply, htk2, hcli, hackok, if_pos, htk3,
    hrun, hfin, hfindel, htk4, htear]

theorem C1_lossfree_delivery_witness :
    fullRun 3 2 [[1, 2], [3]] = some ([[1, 2], [3]] : List (List Nat)).flatten :=
  C1_lossfree_delivery 2 [[1, 2], [3]] 3 (by decide) (by decide) (by decide)
    (by decide) (by decide)

/-- C1 counterexample: with requested window size `W = 65536` (which is
`≥ 1`) and a one-chunk file, the run delivers nothing: `struct.pack` raises
on the SYN packet's 16-bit `recv_window` field and the client dies before
sending any data, so the receiver does not obtain the original bytes. -/
theorem C1_window_65536_crashes :
    fullRun 2 65536 [[1]] ≠ some ([[1]] : List (List Nat)).flatten := by
  decide
